import Mathlib

/-!
Shallow embedding of the viewport-state and annotation engine of
`src/App.tsx` (a React/Plotly dashboard).  JavaScript values appearing in
event payloads and layout objects are modelled by the inductive type `Val`;
JS objects are association lists in insertion order; dotted layout keys such
as `yaxis2.range` are modelled as structured pairs (axis name, field), which
is faithful because axis names never contain a dot.
-/

/-- A JavaScript value as it appears in Plotly event payloads and layout
objects: strings, numbers, booleans, `null`, `undefined`, and arrays. -/
inductive Val where
  | vStr (s : String)
  | vNum (n : Int)
  | vBool (b : Bool)
  | vNull
  | vUndefined
  | vArr (elems : List Val)

/-- JS truthiness (`Boolean(value)`), as used by `Boolean(value)` in
`extractZoomFromRelayoutEvent`. -/
def truthy : Val → Bool
  | .vStr s => s ≠ ""
  | .vNum n => n ≠ 0
  | .vBool b => b
  | .vNull => false
  | .vUndefined => false
  | .vArr _ => true

/-- A JS object: association list of property name to value, in insertion
order. -/
abbrev JsObj : Type := List (String × Val)

/-- Property access `o[k]`; missing properties read as `undefined`. -/
def getProp : JsObj → String → Val
  | [], _ => .vUndefined
  | (k', v) :: rest, k => if k' = k then v else getProp rest k

/-- `Array.isArray` guard used by the capture helpers. -/
def getArr : Val → Option (List Val)
  | .vArr l => some l
  | _ => none

/-- `Array.isArray(v) && v.length === 2` guard (used for `domain`). -/
def getPair : Val → Option (Val × Val)
  | .vArr [a, b] => some (a, b)
  | _ => none

/-- `typeof v === "boolean"` guard. -/
def getBool : Val → Option Bool
  | .vBool b => some b
  | _ => none

/-- `typeof v === "string"` guard. -/
def getStr : Val → Option String
  | .vStr s => some s
  | _ => none

/-- `typeof v === "number"` guard. -/
def getNum : Val → Option Int
  | .vNum n => some n
  | _ => none

/-! ## Relayout Event Interpreter (`extractZoomFromRelayoutEvent`) -/

/-- The regex `[xy]axis\d*`: an `x` or `y`, then `axis`, then zero or more
digits. -/
def isEventAxisName (s : String) : Bool :=
  match s.data with
  | c :: 'a' :: 'x' :: 'i' :: 's' :: ds =>
    (c = 'x' || c = 'y') && ds.all Char.isDigit
  | _ => false

/-- The field part of a relayout key recognised by the interpreter. -/
inductive RelayoutField where
  | rangeIdx (i : Nat)
  | rangeWhole
  | autorangeField
deriving DecidableEq, Repr

/-- Split a character list at every dot. -/
def splitDotAux : List Char → List Char → List (List Char)
  | [], acc => [acc.reverse]
  | c :: rest, acc =>
    if c = '.' then acc.reverse :: splitDotAux rest []
    else splitDotAux rest (c :: acc)

/-- Split a string at every dot (`"a.b".split(".") = ["a","b"]`). -/
def splitOnDots (s : String) : List String :=
  (splitDotAux s.data []).map (fun l => String.mk l)

/-- Parse one relayout key against the three anchored regexes
`^([xy]axis\d*)\.range\[(0|1)\]$`, `^([xy]axis\d*)\.range$`,
`^([xy]axis\d*)\.autorange$`.  Axis names and field names contain no dot,
so a key matches iff it splits on `.` into exactly an axis part and a
recognised field part. -/
def parseAxisKey (key : String) : Option (String × RelayoutField) :=
  match splitOnDots key with
  | [axis, f] =>
    if isEventAxisName axis then
      if f = "range[0]" then some (axis, .rangeIdx 0)
      else if f = "range[1]" then some (axis, .rangeIdx 1)
      else if f = "range" then some (axis, .rangeWhole)
      else if f = "autorange" then some (axis, .autorangeField)
      else none
    else none
  | _ => none

/-- Per-axis normalized delta (`AxisZoom` in the source): optional
two-endpoint range (endpoints may still be `undefined` when only one
indexed key has arrived) and optional autorange flag. -/
structure AxisZoom where
  range : Option (Val × Val) := none
  autorange : Option Bool := none

/-- `result[axisName] = result[axisName] || {}` followed by mutation:
update the entry in place if present, else append a fresh one. -/
def upsertAxis (l : List (String × AxisZoom)) (k : String)
    (f : AxisZoom → AxisZoom) : List (String × AxisZoom) :=
  match l with
  | [] => [(k, f {})]
  | (k', v) :: rest =>
    if k' = k then (k', f v) :: rest else (k', v) :: upsertAxis rest k f

/-- Process one `[key, value]` entry of the relayout event object. -/
def processRelayoutEntry (result : List (String × AxisZoom)) (key : String)
    (value : Val) : List (String × AxisZoom) :=
  match parseAxisKey key with
  | some (ax, .rangeIdx i) =>
    upsertAxis result ax (fun a =>
      let r := a.range.getD (Val.vUndefined, Val.vUndefined)
      let nr := if i = 0 then (value, r.2) else (r.1, value)
      { range := some nr, autorange := some false })
  | some (ax, .rangeWhole) =>
    match value with
    | .vArr [a0, a1] =>
      upsertAxis result ax (fun a =>
        { a with range := some (a0, a1), autorange := some false })
    | _ => result
  | some (ax, .autorangeField) =>
    upsertAxis result ax (fun a => { a with autorange := some (truthy value) })
  | none => result

/-- `extractZoomFromRelayoutEvent`: fold the event's entries in insertion
order into a normalized per-axis structure. -/
def extractZoomFromRelayoutEvent (evt : List (String × Val)) :
    List (String × AxisZoom) :=
  evt.foldl (fun r p => processRelayoutEntry r p.1 p.2) []

/-! ## One-shot relayout-save suppression counter -/

/-- Events touching `suppressRelayoutSavesRef`: every programmatic restore
site assigns `= 1` (zoom presets, legend click, the restore in
`onInitialized`); each incoming relayout event runs the guard at the top of
`onRelayout`. -/
inductive SupEvent where
  | programmaticRestore
  | relayoutEvent
deriving DecidableEq, Repr

/-- One step of the counter.  `onRelayout` decrements only when the counter
is strictly positive (`if (suppressRelayoutSavesRef.current > 0) { ... -= 1
}`); every restore site assigns `1`. -/
def stepCounter (c : Int) : SupEvent → Int
  | .programmaticRestore => 1
  | .relayoutEvent => if c > 0 then c - 1 else c

/-- Run the counter from an initial value over a sequence of events. -/
def runCounter (c : Int) (evs : List SupEvent) : Int :=
  evs.foldl stepCounter c

/-! ## Viewport capture (`saveCurrentZoom`) -/

/-- Snapshot of the x axis: `range` kept when `Array.isArray`, `autorange`
when boolean. -/
structure XSnap where
  range : Option (List Val) := none
  autorange : Option Bool := none

/-- Snapshot of a y axis (`captureYAxisProperties`). -/
structure YSnap where
  range : Option (List Val) := none
  autorange : Option Bool := none
  domain : Option (Val × Val) := none
  position : Option Int := none
  side : Option String := none
  anchor : Option String := none
  overlaying : Option String := none
  type : Option String := none

/-- `captureYAxisProperties(yaxisObj)`. -/
def captureYAxisProperties (o : JsObj) : YSnap :=
  { range := getArr (getProp o "range")
    autorange := getBool (getProp o "autorange")
    domain := getPair (getProp o "domain")
    position := getNum (getProp o "position")
    side := getStr (getProp o "side")
    anchor := getStr (getProp o "anchor")
    overlaying := getStr (getProp o "overlaying")
    type := getStr (getProp o "type") }

/-- The value stored per chart in `savedZooms`: x snapshot, the captured
y axes in `yaxis, yaxis2, yaxis3, yaxis4` order, and the trace-visibility
array. -/
structure ZoomSettings where
  xaxis : XSnap
  yaxes : List (String × YSnap)
  traceVisibility : List Val

/-- A Plotly trace, restricted to what capture reads: its `yaxis` tag
(e.g. `"y2"`; absent means primary) and its `visible` property. -/
structure Trace where
  yaxis : Option String := none
  visible : Val := .vUndefined

/-- The graph div as read by `saveCurrentZoom`: the user-facing
`gd.layout` axis objects, the computed `gd._fullLayout` fallbacks for the
y axes, and `gd.data`. -/
structure GraphDiv where
  layoutXaxis : Option JsObj := none
  layoutYaxis : Option JsObj := none
  layoutYaxis2 : Option JsObj := none
  layoutYaxis3 : Option JsObj := none
  layoutYaxis4 : Option JsObj := none
  fullYaxis : Option JsObj := none
  fullYaxis2 : Option JsObj := none
  fullYaxis3 : Option JsObj := none
  fullYaxis4 : Option JsObj := none
  data : Option (List Trace) := none

/-- `!yaxisTag || yaxisTag === "y" ? "yaxis" : "yaxis" + yaxisTag.slice(1)`. -/
def mapYAxisTag (t : Option String) : String :=
  match t with
  | none => "yaxis"
  | some tag => if tag = "" ∨ tag = "y" then "yaxis" else "yaxis" ++ tag.drop 1

/-- The set of y-axis names used by current traces; defaults to the primary
axis when empty or when `gd.data` is not an array. -/
def usedYAxes (data : Option (List Trace)) : List String :=
  match data with
  | some ts =>
    let l := ts.map (fun t => mapYAxisTag t.yaxis)
    if l.isEmpty then ["yaxis"] else l
  | none => ["yaxis"]

/-- `currentLayout.yaxisN || fullLayout.yaxisN || {}`. -/
def axisObjOf (l f : Option JsObj) : JsObj :=
  match l with
  | some o => o
  | none => f.getD []

/-- The `axisMap` of `saveCurrentZoom`, in its key order. -/
def yAxisCandidates (gd : GraphDiv) : List (String × JsObj) :=
  [("yaxis", axisObjOf gd.layoutYaxis gd.fullYaxis),
   ("yaxis2", axisObjOf gd.layoutYaxis2 gd.fullYaxis2),
   ("yaxis3", axisObjOf gd.layoutYaxis3 gd.fullYaxis3),
   ("yaxis4", axisObjOf gd.layoutYaxis4 gd.fullYaxis4)]

/-- Trace-visibility capture: `trace.visible !== undefined ? trace.visible
: true` over `gd.data` (empty when `gd.data` is absent). -/
def captureTraceVisibility (data : Option (List Trace)) : List Val :=
  match data with
  | some ts => ts.map (fun t => match t.visible with
      | .vUndefined => .vBool true
      | v => v)
  | none => []

/-- `saveCurrentZoom`'s `zoomSettings`: x snapshot from `gd.layout.xaxis`,
trace visibility, and each candidate y axis that is used by some trace and
whose object is non-empty. -/
def captureZoom (gd : GraphDiv) : ZoomSettings :=
  let used := usedYAxes gd.data
  let xObj := gd.layoutXaxis.getD []
  { xaxis := { range := getArr (getProp xObj "range")
               autorange := getBool (getProp xObj "autorange") }
    yaxes := (yAxisCandidates gd).filterMap (fun p =>
      if used.contains p.1 && !p.2.isEmpty then
        some (p.1, captureYAxisProperties p.2)
      else none)
    traceVisibility := captureTraceVisibility gd.data }

/-- The in-memory `savedZooms` store, keyed by chart identity. -/
abbrev Store : Type := String → Option ZoomSettings

/-- `setSavedZooms` merge: wholesale overwrite of one chart's entry. -/
def setStore (s : Store) (id : String) (z : ZoomSettings) : Store :=
  fun k => if k = id then some z else s k

/-- `saveCurrentZoom` for chart `id` on graph div `gd`. -/
def saveCurrentZoom (s : Store) (id : String) (gd : GraphDiv) : Store :=
  setStore s id (captureZoom gd)

/-- A sequence of captures (chart id, live state at capture time). -/
def applyCaptures (s : Store) (ops : List (String × GraphDiv)) : Store :=
  ops.foldl (fun st p => saveCurrentZoom st p.1 p.2) s

/-! ## Restore (`restoreSavedZoom`) -/

/-- The field part of a dotted layout-settings key. -/
inductive LField where
  | range
  | autorange
  | type
  | position
  | anchor
  | overlaying
  | side
deriving DecidableEq, Repr

/-- Flat layout-settings object: dotted keys `axis.field` modelled as
structured pairs, in insertion order. -/
abbrev LSettings : Type := List ((String × LField) × Val)

/-- Look up a key in a layout-settings object (first occurrence). -/
def findVal (l : LSettings) (k : String × LField) : Option Val :=
  match l with
  | [] => none
  | (k', v) :: rest => if k' = k then some v else findVal rest k

/-- The regex `^yaxis\d*$` used to pick saved y-axis keys in
`restoreSavedZoom`. -/
def isYAxisPattern (s : String) : Bool :=
  match s.data with
  | 'y' :: 'a' :: 'x' :: 'i' :: 's' :: ds => ds.all Char.isDigit
  | _ => false

/-- The regex `^yaxis\d+$` (at least one digit): a secondary y-axis name,
as matched by the second-pass key filter in `onInitialized`. -/
def isSecondaryYName (s : String) : Bool :=
  match s.data with
  | 'y' :: 'a' :: 'x' :: 'i' :: 's' :: ds => !ds.isEmpty && ds.all Char.isDigit
  | _ => false

/-- Restore segment for the x axis: range when present (arrays are always
truthy), autorange when not `undefined`. -/
def xSegment (x : XSnap) : LSettings :=
  (match x.range with
   | some r => [(("xaxis", LField.range), Val.vArr r)]
   | none => []) ++
  (match x.autorange with
   | some b => [(("xaxis", LField.autorange), Val.vBool b)]
   | none => [])

/-- `if (yAxisData.range) restoreSettings[yAxisName + ".range"] = ...`. -/
def rangeSeg (n : String) (d : YSnap) : LSettings :=
  match d.range with
  | some r => [((n, LField.range), Val.vArr r)]
  | none => []

/-- `if (yAxisData.autorange !== undefined) ...`. -/
def autorangeSeg (n : String) (d : YSnap) : LSettings :=
  match d.autorange with
  | some b => [((n, LField.autorange), Val.vBool b)]
  | none => []

/-- `type` is restored only for the primary axis, and only when truthy
(the empty string is falsy). -/
def typeSeg (n : String) (d : YSnap) : LSettings :=
  if n = "yaxis" then
    match d.type with
    | some t => if t ≠ "" then [((n, LField.type), Val.vStr t)] else []
    | none => []
  else []

/-- `if (side) restoreSettings[yAxisName + ".side"] = side` (string
truthiness). -/
def sideSeg (n : String) (d : YSnap) : LSettings :=
  match d.side with
  | some s => if s ≠ "" then [((n, LField.side), Val.vStr s)] else []
  | none => []

/-- Position block for secondary axes: when any position-related property
was captured, set `position` (with `anchor` defaulting to `"free"` and
`overlaying` defaulting to `"y"`) when a position exists, and `side` when
truthy. -/
def posSeg (n : String) (d : YSnap) : LSettings :=
  if n = "yaxis" then []
  else if d.position.isSome || d.side.isSome || d.anchor.isSome
      || d.overlaying.isSome then
    match d.position with
    | some p =>
      [((n, LField.position), Val.vNum p),
       ((n, LField.anchor), Val.vStr (d.anchor.getD "free")),
       ((n, LField.overlaying), Val.vStr (d.overlaying.getD "y"))] ++
      sideSeg n d
    | none => sideSeg n d
  else []

/-- All settings emitted for one saved y axis, in source order. -/
def ySegment (n : String) (d : YSnap) : LSettings :=
  rangeSeg n d ++ autorangeSeg n d ++ typeSeg n d ++ posSeg n d

/-- The full `restoreSettings` object built by `restoreSavedZoom`: the x
segment, then the segments of each saved key matching `^yaxis\d*$`, in
saved order. -/
def restoreSettings (saved : ZoomSettings) : LSettings :=
  xSegment saved.xaxis ++
  (saved.yaxes.filter (fun p => isYAxisPattern p.1)).flatMap
    (fun p => ySegment p.1 p.2)

/-- The value returned by `restoreSavedZoom`: layout settings plus the
saved trace-visibility array (`|| null` never fires: the field is always an
array, and arrays are truthy). -/
structure RestoreResult where
  layoutSettings : LSettings
  traceVisibility : Option (List Val)

/-- `restoreSavedZoom(chartId)`: `null` when no snapshot is stored. -/
def restoreSavedZoom (s : Store) (id : String) : Option RestoreResult :=
  (s id).map (fun sz =>
    { layoutSettings := restoreSettings sz
      traceVisibility := some sz.traceVisibility })

/-! ## Trace-visibility normalization in `onInitialized` -/

/-- `v === null ? true : v` applied to each saved visibility entry. -/
def convertVisibility (l : List Val) : List Val :=
  l.map (fun v => match v with
    | .vNull => .vBool true
    | v => v)

/-- The normalization applied before the batched restyle: when the current
trace count is positive, truncate when longer and pad with `true` when
shorter; when the current trace count is zero the array is left as is. -/
def normalizeVisibility (currentTraceCount : Nat) (visibilityArray : List Val) :
    List Val :=
  if currentTraceCount > 0 then
    if visibilityArray.length > currentTraceCount then
      visibilityArray.take currentTraceCount
    else if visibilityArray.length < currentTraceCount then
      visibilityArray ++
        List.replicate (currentTraceCount - visibilityArray.length)
          (Val.vBool true)
    else visibilityArray
  else visibilityArray

/-! ## Second corrective pass for positioned secondary axes -/

/-- `Object.keys(layoutSettings).filter(/^(yaxis\d+)\.position$/).map(m[1])
.filter(a => a !== "yaxis")`. -/
def posAxesOf (ls : LSettings) : List String :=
  ((ls.map (fun p => p.1)).filterMap (fun k =>
    if k.2 = LField.position ∧ isSecondaryYName k.1 then some k.1 else none)
  ).filter (fun a => a ≠ "yaxis")

/-- Copy one key of the first-pass settings into the second pass when
present. -/
def copyKey (ls : LSettings) (k : String × LField) : LSettings :=
  match findVal ls k with
  | some v => [(k, v)]
  | none => []

/-- The keys copied into the second pass for one positioned secondary
axis, in source order: `position`, `anchor`, `overlaying`, `side`. -/
def secondPassBlock (ls : LSettings) (n : String) : LSettings :=
  copyKey ls (n, LField.position) ++ copyKey ls (n, LField.anchor) ++
    copyKey ls (n, LField.overlaying) ++ copyKey ls (n, LField.side)

/-- The `secondPass` object: for each positioned secondary axis, re-assert
`position`, `anchor`, `overlaying` and `side` from the first-pass
settings. -/
def buildSecondPass (ls : LSettings) : LSettings :=
  (posAxesOf ls).foldl (fun acc n => acc ++ secondPassBlock ls n) []

/-! ## The restore pipeline of `onInitialized`

The external Plotly calls (`restyle`, `relayout`) may throw; their
success or failure is an input (`ExtBehavior`), and the pipeline records
the calls it issued and the errors it caught. -/

/-- An external Plotly command issued during restore. -/
inductive PlotCall where
  | restyle (visible : List Val)
  | relayout (settings : LSettings)

/-- Whether each external call, if issued, succeeds or throws. -/
structure ExtBehavior where
  restyleOk : Bool
  relayoutOk : Bool
  secondOk : Bool

/-- What the restore block of `onInitialized` did: the calls it issued (in
order) and the errors it caught and logged. -/
structure RestoreTrace where
  calls : List PlotCall
  logged : List String

/-- The restore block of `onInitialized`: apply trace visibility first
(errors caught and logged), then the layout settings inside a try/catch;
the second corrective pass runs only when the first relayout succeeded,
inside its own try/catch.  A failed layout pass is logged, nothing is
rolled back, and nothing is retried. -/
def runInitRestore (res : Option RestoreResult) (currentTraceCount : Nat)
    (be : ExtBehavior) : RestoreTrace :=
  match res with
  | none => { calls := [], logged := [] }
  | some r =>
    if r.layoutSettings.isEmpty then { calls := [], logged := [] }
    else
      let visPart : List PlotCall × List String :=
        match r.traceVisibility with
        | some vis =>
          let normalized :=
            normalizeVisibility currentTraceCount (convertVisibility vis)
          if be.restyleOk then ([.restyle normalized], [])
          else ([.restyle normalized], ["visibility-error"])
        | none => ([], [])
      let layoutPart : List PlotCall × List String :=
        if be.relayoutOk then
          if (posAxesOf r.layoutSettings).isEmpty then
            ([.relayout r.layoutSettings], [])
          else
            let sp := buildSecondPass r.layoutSettings
            if be.secondOk then
              ([.relayout r.layoutSettings, .relayout sp], [])
            else
              ([.relayout r.layoutSettings, .relayout sp],
               ["second-pass-error"])
        else ([.relayout r.layoutSettings], ["layout-error"])
      { calls := visPart.1 ++ layoutPart.1
        logged := visPart.2 ++ layoutPart.2 }

/-! ## Annotation overlay (drawing lines) -/

/-- The y axes a drawing can bind to. -/
inductive YAxisName where
  | yaxis
  | yaxis2
  | yaxis3
  | yaxis4
deriving DecidableEq, Repr

/-- `DrawingLine`: endpoints in data space, the y axis whose scale the y
values belong to, and styling. -/
structure DrawingLine where
  id : String
  x0 : Val
  y0 : Val
  x1 : Val
  y1 : Val
  yAxisName : YAxisName
  color : String
  width : Nat

/-- Pixel coordinates of a pointer event. -/
abbrev Px : Type := Int × Int

/-- The `pixelToData` projection environment at the moment of an event:
`none` when the axis scale functions are unavailable. -/
abbrev Proj : Type := YAxisName → Px → Option (Val × Val)

/-- Drawing mode (`"off" | "line"`). -/
inductive DrawMode where
  | off
  | line
deriving DecidableEq, Repr

/-- The drawing-related component state. -/
structure DrawState where
  drawingMode : DrawMode
  selectedYAxisForDraw : YAxisName
  selectedChartId : String
  activeLine : Option DrawingLine
  drawingsByChart : String → List DrawingLine

/-- `startDrawing`: project the pointer on the currently selected axis and
create a line with both endpoints there, bound to that axis. -/
def startDrawing (proj : Proj) (pt : Px) (newId : String) (s : DrawState) :
    DrawState :=
  if s.drawingMode = DrawMode.line then
    match proj s.selectedYAxisForDraw pt with
    | none => s
    | some c =>
      let newLine : DrawingLine :=
        { id := newId, x0 := c.1, y0 := c.2, x1 := c.1, y1 := c.2
          yAxisName := s.selectedYAxisForDraw
          color := "#ffcc00", width := 2 }
      { s with activeLine := some newLine }
  else s

/-- Switching the axis dropdown only changes the selected axis. -/
def setSelectedAxis (a : YAxisName) (s : DrawState) : DrawState :=
  { s with selectedYAxisForDraw := a }

/-- `moveDrawing`: re-project on the active line's own axis and update only
the terminal endpoint. -/
def moveDrawing (proj : Proj) (pt : Px) (s : DrawState) : DrawState :=
  match s.activeLine with
  | none => s
  | some l =>
    if s.drawingMode = DrawMode.line then
      match proj l.yAxisName pt with
      | none => s
      | some c => { s with activeLine := some { l with x1 := c.1, y1 := c.2 } }
    else s

/-- `endDrawing`: if the projection is unavailable the active line is
discarded; otherwise the finalized line is appended to the current chart's
list. -/
def endDrawing (proj : Proj) (pt : Px) (s : DrawState) : DrawState :=
  match s.activeLine with
  | none => s
  | some l =>
    if s.drawingMode = DrawMode.line then
      match proj l.yAxisName pt with
      | none => { s with activeLine := none }
      | some c =>
        let fin := { l with x1 := c.1, y1 := c.2 }
        { s with
          activeLine := none
          drawingsByChart := fun k =>
            if k = s.selectedChartId then
              s.drawingsByChart s.selectedChartId ++ [fin]
            else s.drawingsByChart k }
    else s

/-! ## Concrete fixtures used by the witnesses -/

/-- Fixture: a drawing line bound to `yaxis2`. -/
def lineEx : DrawingLine :=
  { id := "line_1", x0 := Val.vNum 0, y0 := Val.vNum 0
    x1 := Val.vNum 1, y1 := Val.vNum 1
    yAxisName := YAxisName.yaxis2, color := "#ffcc00", width := 2 }

/-- Fixture: drawing state in line mode with `lineEx` active. -/
def drawStateEx : DrawState :=
  { drawingMode := DrawMode.line
    selectedYAxisForDraw := YAxisName.yaxis2
    selectedChartId := "realisedcap"
    activeLine := some lineEx
    drawingsByChart := fun _ => [] }

/-- Fixture: initial drawing state, line mode, `yaxis2` selected, no active
line, no stored drawings. -/
def drawStartEx : DrawState :=
  { drawingMode := DrawMode.line
    selectedYAxisForDraw := YAxisName.yaxis2
    selectedChartId := "sopr_sth"
    activeLine := none
    drawingsByChart := fun _ => [] }

/-- Fixture: a projection that is available only on `yaxis2` and returns
the pixel coordinates as data. -/
def projEx : Proj := fun a pt =>
  if a = YAxisName.yaxis2 then some (Val.vNum pt.1, Val.vNum pt.2) else none

/-- Fixture: a restore result with a non-empty layout-settings object and a
saved visibility array. -/
def restoreResultEx : RestoreResult :=
  { layoutSettings := [(("xaxis", LField.range),
      Val.vArr [Val.vNum 1, Val.vNum 2])]
    traceVisibility := some [Val.vNull, Val.vBool false] }

/-- Fixture: a graph div with an x range, a primary log y axis in the live
layout, and a positioned secondary axis present only in the computed
layout; two traces, the second on `y2` and legend-hidden. -/
def gdEx : GraphDiv :=
  { layoutXaxis := some
      [("range", Val.vArr [Val.vStr "2022-01-01", Val.vStr "2023-01-01"]),
       ("autorange", Val.vBool false)]
    layoutYaxis := some
      [("range", Val.vArr [Val.vNum 0, Val.vNum 5]),
       ("autorange", Val.vBool false), ("type", Val.vStr "log")]
    fullYaxis2 := some
      [("range", Val.vArr [Val.vNum 1, Val.vNum 3]),
       ("position", Val.vNum 1), ("side", Val.vStr "right")]
    data := some [{ yaxis := none, visible := Val.vUndefined },
                  { yaxis := some "y2", visible := Val.vStr "legendonly" }] }

/-- Fixture: the live state of a different chart, captured while the user
is away. -/
def gdEx2 : GraphDiv :=
  { layoutXaxis := some [("autorange", Val.vBool true)]
    layoutYaxis := some [("autorange", Val.vBool true)]
    data := some [{ yaxis := none, visible := Val.vUndefined }] }

/-- Fixture: a snapshot holding only an x-axis range. -/
def zoomSettingsEx : ZoomSettings :=
  { xaxis := { range := some [Val.vNum 1, Val.vNum 2], autorange := some false }
    yaxes := []
    traceVisibility := [] }

/-- Fixture: the snapshot `captureZoom gdEx` records for the primary axis. -/
def ySnapEx1 : YSnap :=
  captureYAxisProperties
    [("range", Val.vArr [Val.vNum 0, Val.vNum 5]),
     ("autorange", Val.vBool false), ("type", Val.vStr "log")]

/-- Fixture: the snapshot `captureZoom gdEx` records for `yaxis2` (position
1, side "right", no anchor or overlaying captured). -/
def ySnapEx2 : YSnap :=
  captureYAxisProperties
    [("range", Val.vArr [Val.vNum 1, Val.vNum 3]),
     ("position", Val.vNum 1), ("side", Val.vStr "right")]

/-! ## Lemmas: layout-settings lookup -/

theorem findVal_cons (p : (String × LField) × Val) (l : LSettings)
    (k : String × LField) :
    findVal (p :: l) k = if p.1 = k then some p.2 else findVal l k := by
  cases p
  rfl

theorem findVal_append (l₁ l₂ : LSettings) (k : String × LField) :
    findVal (l₁ ++ l₂) k =
      match findVal l₁ k with
      | some v => some v
      | none => findVal l₂ k := by
  induction l₁ with
  | nil => rfl
  | cons p t ih =>
    rw [List.cons_append, findVal_cons, findVal_cons]
    by_cases h : p.1 = k
    · rw [if_pos h, if_pos h]
    · rw [if_neg h, if_neg h, ih]

theorem findVal_eq_none {l : LSettings} {k : String × LField}
    (h : ∀ p ∈ l, p.1 ≠ k) : findVal l k = none := by
  induction l with
  | nil => rfl
  | cons p t ih =>
    rw [findVal_cons, if_neg (h p (List.mem_cons_self p t))]
    exact ih (fun q hq => h q (List.mem_cons_of_mem p hq))

theorem findVal_isSome_mem {l : LSettings} {k : String × LField} {v : Val}
    (h : findVal l k = some v) : k ∈ l.map (fun p => p.1) := by
  induction l with
  | nil => exact absurd h (by simp [findVal])
  | cons p t ih =>
    rw [findVal_cons] at h
    by_cases hk : p.1 = k
    · exact List.mem_map.mpr ⟨p, List.mem_cons_self p t, hk⟩
    · rw [if_neg hk] at h
      exact List.mem_cons_of_mem _ (ih h)

/-! ## Lemmas: suppression counter -/

theorem stepCounter_nonneg (c : Int) (e : SupEvent) (hc : 0 ≤ c) :
    0 ≤ stepCounter c e := by
  cases e with
  | programmaticRestore => norm_num [stepCounter]
  | relayoutEvent =>
    by_cases h : c > 0
    · simp only [stepCounter, if_pos h]
      omega
    · simp only [stepCounter, if_neg h]
      exact hc

theorem runCounter_nonneg_of_nonneg (evs : List SupEvent) :
    ∀ c : Int, 0 ≤ c → 0 ≤ runCounter c evs := by
  induction evs with
  | nil => intro c hc; exact hc
  | cons e t ih =>
    intro c hc
    exact ih (stepCounter c e) (stepCounter_nonneg c e hc)

/-- **C3**: starting from the initial value 0, the one-shot suppression
counter never goes negative under any interleaving of programmatic
restores (which set it to 1) and relayout echo events; and a relayout
event decrements it by exactly one when it is strictly positive and leaves
it unchanged otherwise. -/
theorem suppression_counter_never_negative :
    (∀ evs : List SupEvent, 0 ≤ runCounter 0 evs) ∧
    (∀ c : Int, stepCounter c SupEvent.relayoutEvent =
      if 0 < c then c - 1 else c) :=
  ⟨fun evs => runCounter_nonneg_of_nonneg evs 0 le_rfl, fun _ => rfl⟩

/-! ## C4 / C5: the relayout event interpreter -/

/-- **C4**: two indexed single-endpoint keys of the same event are merged
into a single two-element range for that axis, with `autorange` forced to
`false`; the spec's example input produces exactly the spec's example
output and nothing else. -/
theorem relayout_indexed_endpoints_merged :
    extractZoomFromRelayoutEvent
      [("xaxis.range[0]", Val.vStr "2022-01-01"),
       ("xaxis.range[1]", Val.vStr "2023-01-01")] =
    [("xaxis",
      { range := some (Val.vStr "2022-01-01", Val.vStr "2023-01-01"),
        autorange := some false })] := rfl

/-- **C5**: an event carrying only an autorange flag for one axis yields an
entry for exactly that axis with only the `autorange` field set and no
`range` field. -/
theorem relayout_autorange_only_no_range :
    extractZoomFromRelayoutEvent [("yaxis2.autorange", Val.vBool true)] =
    [("yaxis2", { range := none, autorange := some true })] := rfl

/-! ## C2: trace-visibility resizing -/

/-- **C2** counterexample: when the chart currently has zero series, the
saved visibility array is *not* resized to the current series count — the
`currentTraceCount > 0` guard skips normalization, so a one-element saved
array stays one element long instead of being truncated to length 0. -/
theorem traceVisibility_not_resized_when_no_series :
    ¬ (normalizeVisibility 0 [Val.vBool true]).length = 0 := by decide

/-- **C2** amended: whenever the chart currently has at least one series,
the saved visibility array is resized to the current series count —
truncated when longer, padded with `true` (visible) when shorter, and kept
as is when equal — and the computation is total, so restoring after the
series count shrank cannot throw.  (When the current series count is zero
the array is applied unchanged.) -/
theorem traceVisibility_resized_to_series_count (count : Nat)
    (arr : List Val) (h : 0 < count) :
    (normalizeVisibility count arr).length = count ∧
    (arr.length > count → normalizeVisibility count arr = arr.take count) ∧
    (arr.length < count →
      normalizeVisibility count arr =
        arr ++ List.replicate (count - arr.length) (Val.vBool true)) ∧
    (arr.length = count → normalizeVisibility count arr = arr) := by
  refine ⟨?_, ?_, ?_, ?_⟩
  · unfold normalizeVisibility
    rw [if_pos h]
    by_cases h1 : arr.length > count
    · rw [if_pos h1, List.length_take]
      omega
    · rw [if_neg h1]
      by_cases h2 : arr.length < count
      · rw [if_pos h2, List.length_append, List.length_replicate]
        omega
      · rw [if_neg h2]
        omega
  · intro h1
    unfold normalizeVisibility
    rw [if_pos h, if_pos h1]
  · intro h2
    unfold normalizeVisibility
    rw [if_pos h, if_neg (by omega), if_pos h2]
  · intro he
    unfold normalizeVisibility
    rw [if_pos h, if_neg (by omega), if_neg (by omega)]

/-- Witness for the amended C2 statement: a saved three-flag array against
a chart that now has two series is truncated to two flags, and a saved
one-flag array is conceptually covered by the padding clause. -/
theorem traceVisibility_resized_witness :
    0 < 2 ∧
    ((normalizeVisibility 2 [Val.vBool false, Val.vNull, Val.vBool true]).length
        = 2 ∧
     ([Val.vBool false, Val.vNull, Val.vBool true].length > 2 →
       normalizeVisibility 2 [Val.vBool false, Val.vNull, Val.vBool true] =
         [Val.vBool false, Val.vNull, Val.vBool true].take 2) ∧
     ([Val.vBool false, Val.vNull, Val.vBool true].length < 2 →
       normalizeVisibility 2 [Val.vBool false, Val.vNull, Val.vBool true] =
         [Val.vBool false, Val.vNull, Val.vBool true] ++
           List.replicate (2 - [Val.vBool false, Val.vNull,
             Val.vBool true].length) (Val.vBool true)) ∧
     ([Val.vBool false, Val.vNull, Val.vBool true].length = 2 →
       normalizeVisibility 2 [Val.vBool false, Val.vNull, Val.vBool true] =
         [Val.vBool false, Val.vNull, Val.vBool true])) :=
  ⟨by decide,
   traceVisibility_resized_to_series_count 2
     [Val.vBool false, Val.vNull, Val.vBool true] (by decide)⟩

/-! ## C10: pointer-up with unavailable projection -/

/-- **C10**: if the pixel-to-data projection is unavailable at pointer-up,
the in-progress active line is discarded entirely — the gesture aborts,
nothing is appended to any chart's annotation list, and the stored
annotations are unchanged. -/
theorem pointer_up_unavailable_projection_discards_line (proj : Proj)
    (pt : Px) (s : DrawState) (l : DrawingLine)
    (hactive : s.activeLine = some l)
    (hmode : s.drawingMode = DrawMode.line)
    (hproj : proj l.yAxisName pt = none) :
    (endDrawing proj pt s).activeLine = none ∧
    (endDrawing proj pt s).drawingsByChart = s.drawingsByChart := by
  simp [endDrawing, hactive, hmode, hproj]

/-- Witness for C10 at a concrete state with an always-unavailable
projection. -/
theorem pointer_up_unavailable_projection_witness :
    (drawStateEx.activeLine = some lineEx ∧
     drawStateEx.drawingMode = DrawMode.line ∧
     (fun _ _ => none : Proj) lineEx.yAxisName ((0 : Int), (0 : Int)) = none) ∧
    ((endDrawing (fun _ _ => none) ((0 : Int), (0 : Int))
        drawStateEx).activeLine = none ∧
     (endDrawing (fun _ _ => none) ((0 : Int), (0 : Int))
        drawStateEx).drawingsByChart = drawStateEx.drawingsByChart) :=
  ⟨⟨rfl, rfl, rfl⟩,
   pointer_up_unavailable_projection_discards_line
     (fun _ _ => none) ((0 : Int), (0 : Int)) drawStateEx lineEx rfl rfl rfl⟩

/-! ## C8: the axis binding of a drawing is fixed at creation -/

/-- **C8**: pointer-down with `yaxis2` selected, then switching the
selected draw axis to `yaxis`, then pointer-move and pointer-up: the line
created at pointer-down is bound to `yaxis2`, it stays bound to `yaxis2`
through the move, and the finalized line appended to the chart carries
axis `yaxis2` and the endpoint obtained by projecting on `yaxis2`. -/
theorem drawing_axis_binding_fixed_at_creation (proj1 proj2 proj3 : Proj)
    (pt1 pt2 pt3 : Px) (newId : String) (s : DrawState) (c1 c2 c3 : Val × Val)
    (hmode : s.drawingMode = DrawMode.line)
    (hsel : s.selectedYAxisForDraw = YAxisName.yaxis2)
    (h1 : proj1 YAxisName.yaxis2 pt1 = some c1)
    (h2 : proj2 YAxisName.yaxis2 pt2 = some c2)
    (h3 : proj3 YAxisName.yaxis2 pt3 = some c3) :
    ((startDrawing proj1 pt1 newId s).activeLine.map
        (fun l => l.yAxisName) = some YAxisName.yaxis2) ∧
    ((moveDrawing proj2 pt2 (setSelectedAxis YAxisName.yaxis
        (startDrawing proj1 pt1 newId s))).activeLine.map
        (fun l => l.yAxisName) = some YAxisName.yaxis2) ∧
    ((endDrawing proj3 pt3 (moveDrawing proj2 pt2
        (setSelectedAxis YAxisName.yaxis
          (startDrawing proj1 pt1 newId s)))).drawingsByChart
        s.selectedChartId =
      s.drawingsByChart s.selectedChartId ++
        [{ id := newId, x0 := c1.1, y0 := c1.2, x1 := c3.1, y1 := c3.2
           yAxisName := YAxisName.yaxis2, color := "#ffcc00", width := 2 }]) := by
  have hstart : startDrawing proj1 pt1 newId s =
      { s with activeLine := some ⟨newId, c1.1, c1.2, c1.1, c1.2,
          YAxisName.yaxis2, "#ffcc00", 2⟩ } := by
    simp [startDrawing, hmode, hsel, h1]
  have hmove : moveDrawing proj2 pt2 (setSelectedAxis YAxisName.yaxis
      (startDrawing proj1 pt1 newId s)) =
      { s with
        selectedYAxisForDraw := YAxisName.yaxis
        activeLine := some ⟨newId, c1.1, c1.2, c2.1, c2.2,
          YAxisName.yaxis2, "#ffcc00", 2⟩ } := by
    rw [hstart]
    simp [setSelectedAxis, moveDrawing, hmode, h2]
  refine ⟨?_, ?_, ?_⟩
  · rw [hstart]
    rfl
  · rw [hmove]
    rfl
  · rw [hmove]
    simp [endDrawing, hmode, h3]

/-- Witness for C8 at a concrete gesture: down at (1,2), switch the
selected axis to `yaxis`, move at (3,4), up at (5,6). -/
theorem drawing_axis_binding_witness :
    (drawStartEx.drawingMode = DrawMode.line ∧
     drawStartEx.selectedYAxisForDraw = YAxisName.yaxis2 ∧
     projEx YAxisName.yaxis2 ((1 : Int), (2 : Int)) =
       some (Val.vNum 1, Val.vNum 2) ∧
     projEx YAxisName.yaxis2 ((3 : Int), (4 : Int)) =
       some (Val.vNum 3, Val.vNum 4) ∧
     projEx YAxisName.yaxis2 ((5 : Int), (6 : Int)) =
       some (Val.vNum 5, Val.vNum 6)) ∧
    (((startDrawing projEx ((1 : Int), (2 : Int)) "line_1"
        drawStartEx).activeLine.map (fun l => l.yAxisName) =
          some YAxisName.yaxis2) ∧
     ((moveDrawing projEx ((3 : Int), (4 : Int)) (setSelectedAxis
        YAxisName.yaxis (startDrawing projEx ((1 : Int), (2 : Int)) "line_1"
          drawStartEx))).activeLine.map (fun l => l.yAxisName) =
          some YAxisName.yaxis2) ∧
     ((endDrawing projEx ((5 : Int), (6 : Int)) (moveDrawing projEx
        ((3 : Int), (4 : Int)) (setSelectedAxis YAxisName.yaxis
          (startDrawing projEx ((1 : Int), (2 : Int)) "line_1"
            drawStartEx)))).drawingsByChart drawStartEx.selectedChartId =
       drawStartEx.drawingsByChart drawStartEx.selectedChartId ++
         [{ id := "line_1", x0 := Val.vNum 1, y0 := Val.vNum 2
            x1 := Val.vNum 5, y1 := Val.vNum 6
            yAxisName := YAxisName.yaxis2, color := "#ffcc00", width := 2 }])) :=
  ⟨⟨rfl, rfl, rfl, rfl, rfl⟩,
   drawing_axis_binding_fixed_at_creation projEx projEx projEx
     ((1 : Int), (2 : Int)) ((3 : Int), (4 : Int)) ((5 : Int), (6 : Int))
     "line_1" drawStartEx (Val.vNum 1, Val.vNum 2) (Val.vNum 3, Val.vNum 4)
     (Val.vNum 5, Val.vNum 6) rfl rfl rfl rfl rfl⟩

/-! ## C9: layout-pass failure is contained -/

/-- **C9**: when the layout-restoration relayout throws while the
trace-visibility restyle succeeded, the restore block issues exactly the
restyle and the single failed relayout — the visibility pass is not rolled
back, the relayout is not retried, the second pass is not attempted — the
error is caught and logged, and the block returns normally. -/
theorem restore_layout_failure_contained (r : RestoreResult) (count : Nat)
    (be : ExtBehavior) (vis : List Val)
    (hls : r.layoutSettings ≠ [])
    (hvis : r.traceVisibility = some vis)
    (hok : be.restyleOk = true)
    (hfail : be.relayoutOk = false) :
    runInitRestore (some r) count be =
      { calls := [PlotCall.restyle
                    (normalizeVisibility count (convertVisibility vis)),
                  PlotCall.relayout r.layoutSettings]
        logged := ["layout-error"] } := by
  have hempty : r.layoutSettings.isEmpty = false := by
    cases hl : r.layoutSettings with
    | nil => exact absurd hl hls
    | cons a t => rfl
  simp [runInitRestore, hempty, hvis, hok, hfail]

/-- Witness for C9: the layout pass throws, the restyle succeeded. -/
theorem restore_layout_failure_witness :
    (restoreResultEx.layoutSettings ≠ [] ∧
     restoreResultEx.traceVisibility = some [Val.vNull, Val.vBool false] ∧
     (ExtBehavior.mk true false true).restyleOk = true ∧
     (ExtBehavior.mk true false true).relayoutOk = false) ∧
    runInitRestore (some restoreResultEx) 2 (ExtBehavior.mk true false true) =
      { calls := [PlotCall.restyle
                    (normalizeVisibility 2
                      (convertVisibility [Val.vNull, Val.vBool false])),
                  PlotCall.relayout restoreResultEx.layoutSettings]
        logged := ["layout-error"] } :=
  ⟨⟨List.cons_ne_nil _ _, rfl, rfl, rfl⟩,
   restore_layout_failure_contained restoreResultEx 2
     (ExtBehavior.mk true false true) [Val.vNull, Val.vBool false]
     (List.cons_ne_nil _ _) rfl rfl rfl⟩

/-! ## Lemmas: keys of restore segments -/

theorem mem_xSegment {x : XSnap} {p : (String × LField) × Val}
    (hp : p ∈ xSegment x) : p.1.1 = "xaxis" := by
  unfold xSegment at hp
  rcases List.mem_append.mp hp with h | h <;>
    (split at h <;> simp_all)

theorem mem_rangeSeg {n : String} {d : YSnap} {p : (String × LField) × Val}
    (hp : p ∈ rangeSeg n d) : p.1 = (n, LField.range) := by
  unfold rangeSeg at hp
  split at hp <;> simp_all

theorem mem_autorangeSeg {n : String} {d : YSnap} {p : (String × LField) × Val}
    (hp : p ∈ autorangeSeg n d) : p.1 = (n, LField.autorange) := by
  unfold autorangeSeg at hp
  split at hp <;> simp_all

theorem mem_typeSeg {n : String} {d : YSnap} {p : (String × LField) × Val}
    (hp : p ∈ typeSeg n d) : p.1 = (n, LField.type) := by
  unfold typeSeg at hp
  split at hp
  · split at hp
    · split at hp <;> simp_all
    · simp_all
  · simp_all

theorem mem_sideSeg {n : String} {d : YSnap} {p : (String × LField) × Val}
    (hp : p ∈ sideSeg n d) : p.1 = (n, LField.side) := by
  unfold sideSeg at hp
  split at hp
  · split at hp <;> simp_all
  · simp_all

theorem mem_posSeg {n : String} {d : YSnap} {p : (String × LField) × Val}
    (hp : p ∈ posSeg n d) :
    p.1.1 = n ∧ (p.1.2 = LField.position ∨ p.1.2 = LField.anchor ∨
      p.1.2 = LField.overlaying ∨ p.1.2 = LField.side) := by
  unfold posSeg at hp
  split at hp
  · simp_all
  · split at hp
    · split at hp
      · rcases List.mem_append.mp hp with h | h
        · simp only [List.mem_cons, List.not_mem_nil, or_false] at h
          rcases h with h | h | h <;> simp_all
        · have := mem_sideSeg h
          simp_all
      · have := mem_sideSeg hp
        simp_all
    · simp_all

theorem mem_ySegment {n : String} {d : YSnap} {p : (String × LField) × Val}
    (hp : p ∈ ySegment n d) : p.1.1 = n := by
  unfold ySegment at hp
  rcases List.mem_append.mp hp with h | h
  · rcases List.mem_append.mp h with h | h
    · rcases List.mem_append.mp h with h | h
      · rw [mem_rangeSeg h]
      · rw [mem_autorangeSeg h]
    · rw [mem_typeSeg h]
  · exact (mem_posSeg h).1

/-! ## Lemmas: segment lookups -/

theorem findVal_rangeSeg_none {n : String} {d : YSnap} {k : String × LField}
    (hk : k ≠ (n, LField.range)) : findVal (rangeSeg n d) k = none :=
  findVal_eq_none (fun p hp => by
    rw [mem_rangeSeg hp]
    exact fun he => hk he.symm)

theorem findVal_autorangeSeg_none {n : String} {d : YSnap}
    {k : String × LField} (hk : k ≠ (n, LField.autorange)) :
    findVal (autorangeSeg n d) k = none :=
  findVal_eq_none (fun p hp => by
    rw [mem_autorangeSeg hp]
    exact fun he => hk he.symm)

theorem findVal_typeSeg_none {n : String} {d : YSnap} {k : String × LField}
    (hk : k ≠ (n, LField.type)) : findVal (typeSeg n d) k = none :=
  findVal_eq_none (fun p hp => by
    rw [mem_typeSeg hp]
    exact fun he => hk he.symm)

theorem findVal_posSeg_none {n : String} {d : YSnap} {k : String × LField}
    (h1 : k ≠ (n, LField.position)) (h2 : k ≠ (n, LField.anchor))
    (h3 : k ≠ (n, LField.overlaying)) (h4 : k ≠ (n, LField.side)) :
    findVal (posSeg n d) k = none :=
  findVal_eq_none (fun p hp => by
    rcases mem_posSeg hp with ⟨ha, hf⟩
    intro he
    rcases hf with h | h | h | h
    · exact h1 (he.symm.trans (Prod.ext_iff.mpr ⟨ha, h⟩))
    · exact h2 (he.symm.trans (Prod.ext_iff.mpr ⟨ha, h⟩))
    · exact h3 (he.symm.trans (Prod.ext_iff.mpr ⟨ha, h⟩))
    · exact h4 (he.symm.trans (Prod.ext_iff.mpr ⟨ha, h⟩)))

theorem findVal_ySegment_none {n : String} {d : YSnap} {k : String × LField}
    (hk : k.1 ≠ n) : findVal (ySegment n d) k = none :=
  findVal_eq_none (fun p hp => fun he => hk (by rw [← he, mem_ySegment hp]))

theorem findVal_xSegment_none {x : XSnap} {k : String × LField}
    (hk : k.1 ≠ "xaxis") : findVal (xSegment x) k = none :=
  findVal_eq_none (fun p hp => fun he => hk (by rw [← he, mem_xSegment hp]))

theorem findVal_rangeSeg_some (n : String) (d : YSnap) :
    findVal (rangeSeg n d) (n, LField.range) = Option.map Val.vArr d.range := by
  cases hr : d.range <;> simp [rangeSeg, hr, findVal]

theorem findVal_autorangeSeg_some (n : String) (d : YSnap) :
    findVal (autorangeSeg n d) (n, LField.autorange) =
      Option.map Val.vBool d.autorange := by
  cases ha : d.autorange <;> simp [autorangeSeg, ha, findVal]

theorem findVal_ySegment_range (n : String) (d : YSnap) :
    findVal (ySegment n d) (n, LField.range) = Option.map Val.vArr d.range := by
  have h2 : findVal (autorangeSeg n d) (n, LField.range) = none :=
    findVal_autorangeSeg_none (by simp)
  have h3 : findVal (typeSeg n d) (n, LField.range) = none :=
    findVal_typeSeg_none (by simp)
  have h4 : findVal (posSeg n d) (n, LField.range) = none :=
    findVal_posSeg_none (by simp) (by simp) (by simp) (by simp)
  unfold ySegment
  rw [List.append_assoc, List.append_assoc, findVal_append,
    findVal_rangeSeg_some]
  cases hr : d.range with
  | some r => simp
  | none => simp [findVal_append, h2, h3, h4]

theorem findVal_ySegment_autorange (n : String) (d : YSnap) :
    findVal (ySegment n d) (n, LField.autorange) =
      Option.map Val.vBool d.autorange := by
  have h1 : findVal (rangeSeg n d) (n, LField.autorange) = none :=
    findVal_rangeSeg_none (by simp)
  have h3 : findVal (typeSeg n d) (n, LField.autorange) = none :=
    findVal_typeSeg_none (by simp)
  have h4 : findVal (posSeg n d) (n, LField.autorange) = none :=
    findVal_posSeg_none (by simp) (by simp) (by simp) (by simp)
  unfold ySegment
  rw [List.append_assoc, List.append_assoc, findVal_append, h1,
    findVal_append, findVal_autorangeSeg_some]
  cases ha : d.autorange with
  | some b => simp
  | none => simp [findVal_append, h3, h4]

theorem findVal_posSeg_position {n : String} {d : YSnap} {p : Int}
    (hn : n ≠ "yaxis") (hp : d.position = some p) :
    findVal (posSeg n d) (n, LField.position) = some (Val.vNum p) := by
  simp [posSeg, hn, hp, findVal]

theorem findVal_posSeg_anchor {n : String} {d : YSnap} {p : Int}
    (hn : n ≠ "yaxis") (hp : d.position = some p) :
    findVal (posSeg n d) (n, LField.anchor) =
      some (Val.vStr (d.anchor.getD "free")) := by
  simp [posSeg, hn, hp, findVal]

theorem findVal_posSeg_overlaying {n : String} {d : YSnap} {p : Int}
    (hn : n ≠ "yaxis") (hp : d.position = some p) :
    findVal (posSeg n d) (n, LField.overlaying) =
      some (Val.vStr (d.overlaying.getD "y")) := by
  simp [posSeg, hn, hp, findVal]

theorem findVal_posSeg_side {n : String} {d : YSnap} {p : Int} {sv : String}
    (hn : n ≠ "yaxis") (hp : d.position = some p) (hs : d.side = some sv)
    (hsne : sv ≠ "") :
    findVal (posSeg n d) (n, LField.side) = some (Val.vStr sv) := by
  simp [posSeg, sideSeg, hn, hp, hs, hsne, findVal]

theorem findVal_ySegment_posField {n : String} {d : YSnap} {f : LField}
    (hf : f = LField.position ∨ f = LField.anchor ∨ f = LField.overlaying ∨
      f = LField.side) :
    findVal (ySegment n d) (n, f) = findVal (posSeg n d) (n, f) := by
  have h1 : findVal (rangeSeg n d) (n, f) = none :=
    findVal_rangeSeg_none (by rcases hf with h | h | h | h <;> simp [h])
  have h2 : findVal (autorangeSeg n d) (n, f) = none :=
    findVal_autorangeSeg_none (by rcases hf with h | h | h | h <;> simp [h])
  have h3 : findVal (typeSeg n d) (n, f) = none :=
    findVal_typeSeg_none (by rcases hf with h | h | h | h <;> simp [h])
  unfold ySegment
  rw [List.append_assoc, List.append_assoc, findVal_append, h1,
    findVal_append, h2, findVal_append, h3]

/-! ## Lemmas: lookup through the per-axis blocks of `restoreSettings` -/

theorem findVal_yBlocks {L : List (String × YSnap)} {n : String} {d : YSnap}
    {f : LField} (hnd : (L.map Prod.fst).Nodup) (hm : (n, d) ∈ L) :
    findVal (L.flatMap (fun p => ySegment p.1 p.2)) (n, f) =
      findVal (ySegment n d) (n, f) := by
  induction L with
  | nil => cases hm
  | cons q t ih =>
    rw [List.flatMap_cons, findVal_append]
    rcases List.mem_cons.mp hm with he | ht
    · rw [← he]
      cases hv : findVal (ySegment n d) (n, f) with
      | some v => rfl
      | none =>
        have hnn : n ∉ t.map Prod.fst := by
          rw [← he] at hnd
          exact (List.nodup_cons.mp (by simpa using hnd)).1
        have hz : findVal (t.flatMap (fun p => ySegment p.1 p.2)) (n, f) =
            none := by
          apply findVal_eq_none
          intro p hp
          rcases List.mem_flatMap.mp hp with ⟨q', hq', hpq⟩
          intro hk
          apply hnn
          have ha := mem_ySegment hpq
          rw [hk] at ha
          have ha' : n = q'.1 := ha
          rw [ha']
          exact List.mem_map.mpr ⟨q', hq', rfl⟩
        rw [hz]
    · have hq1 : q.1 ≠ n := by
        have hmem : n ∈ t.map Prod.fst := List.mem_map.mpr ⟨(n, d), ht, rfl⟩
        have hnotin : q.1 ∉ t.map Prod.fst :=
          (List.nodup_cons.mp (by simpa using hnd)).1
        intro he
        rw [he] at hnotin
        exact hnotin hmem
      have hz : findVal (ySegment q.1 q.2) (n, f) = none :=
        findVal_ySegment_none (by simpa using fun he => hq1 he.symm)
      rw [hz]
      exact ih (List.nodup_cons.mp (by simpa using hnd)).2 ht

/-! ## Lemmas: shape of the captured snapshot -/

theorem captureZoom_yaxes_names {gd : GraphDiv} {q : String × YSnap}
    (hq : q ∈ (captureZoom gd).yaxes) :
    q.1 = "yaxis" ∨ q.1 = "yaxis2" ∨ q.1 = "yaxis3" ∨ q.1 = "yaxis4" := by
  unfold captureZoom at hq
  simp only at hq
  rcases List.mem_filterMap.mp hq with ⟨p, hp, hf⟩
  have hq1 : q.1 = p.1 := by
    split at hf
    · cases hf
      rfl
    · cases hf
  simp only [yAxisCandidates, List.mem_cons, List.not_mem_nil, or_false] at hp
  rcases hp with hp | hp | hp | hp <;> rw [hq1, hp]
  · left
    rfl
  · right
    left
    rfl
  · right
    right
    left
    rfl
  · right
    right
    right
    rfl

theorem filterMap_keyed_sublist (l : List (String × JsObj))
    (g : String × JsObj → Option (String × YSnap))
    (hg : ∀ p q, g p = some q → q.1 = p.1) :
    List.Sublist ((l.filterMap g).map Prod.fst) (l.map Prod.fst) := by
  induction l with
  | nil => simp
  | cons a t ih =>
    cases hga : g a with
    | none =>
      simp only [List.filterMap_cons, hga, List.map_cons]
      exact ih.cons a.1
    | some q =>
      simp only [List.filterMap_cons, hga, List.map_cons]
      rw [hg a q hga]
      exact ih.cons₂ a.1

theorem captureZoom_yaxes_nodup (gd : GraphDiv) :
    ((captureZoom gd).yaxes.map Prod.fst).Nodup := by
  have hs : List.Sublist ((captureZoom gd).yaxes.map Prod.fst)
      ((yAxisCandidates gd).map Prod.fst) := by
    unfold captureZoom
    simp only
    apply filterMap_keyed_sublist
    intro p q hf
    split at hf
    · cases hf
      rfl
    · cases hf
  have hc : ((yAxisCandidates gd).map Prod.fst) =
      ["yaxis", "yaxis2", "yaxis3", "yaxis4"] := rfl
  rw [hc] at hs
  exact List.Nodup.sublist hs (by decide)

theorem captureZoom_filter_eq (gd : GraphDiv) :
    (captureZoom gd).yaxes.filter (fun p => isYAxisPattern p.1) =
      (captureZoom gd).yaxes := by
  apply List.filter_eq_self.mpr
  intro p hp
  rcases captureZoom_yaxes_names hp with h | h | h | h <;> rw [h] <;> decide

/-! ## Lemmas: restore-settings lookups under a captured snapshot -/

theorem findVal_xSegment_range (x : XSnap) :
    findVal (xSegment x) ("xaxis", LField.range) =
      Option.map Val.vArr x.range := by
  cases hr : x.range <;> cases ha : x.autorange <;>
    simp [xSegment, hr, ha, findVal]

theorem findVal_xSegment_autorange (x : XSnap) :
    findVal (xSegment x) ("xaxis", LField.autorange) =
      Option.map Val.vBool x.autorange := by
  cases hr : x.range <;> cases ha : x.autorange <;>
    simp [xSegment, hr, ha, findVal]

theorem findVal_restoreSettings_x (gd : GraphDiv) (f : LField) :
    findVal (restoreSettings (captureZoom gd)) ("xaxis", f) =
      findVal (xSegment (captureZoom gd).xaxis) ("xaxis", f) := by
  unfold restoreSettings
  rw [captureZoom_filter_eq, findVal_append]
  cases hv : findVal (xSegment (captureZoom gd).xaxis) ("xaxis", f) with
  | some v => rfl
  | none =>
    have hz : findVal ((captureZoom gd).yaxes.flatMap
        (fun p => ySegment p.1 p.2)) ("xaxis", f) = none := by
      apply findVal_eq_none
      intro p hp
      rcases List.mem_flatMap.mp hp with ⟨q, hq, hpq⟩
      intro hk
      have ha := mem_ySegment hpq
      rw [hk] at ha
      have ha' : "xaxis" = q.1 := ha
      rcases captureZoom_yaxes_names hq with h | h | h | h <;>
        rw [h] at ha' <;> exact absurd ha' (by decide)
    rw [hz]

theorem findVal_restoreSettings_y (gd : GraphDiv) {n : String} {d : YSnap}
    (hm : (n, d) ∈ (captureZoom gd).yaxes) (f : LField) :
    findVal (restoreSettings (captureZoom gd)) (n, f) =
      findVal (ySegment n d) (n, f) := by
  unfold restoreSettings
  rw [captureZoom_filter_eq, findVal_append]
  have hnx : n ≠ "xaxis" := by
    rcases captureZoom_yaxes_names hm with h | h | h | h
    · have h' : n = "yaxis" := h
      rw [h']
      decide
    · have h' : n = "yaxis2" := h
      rw [h']
      decide
    · have h' : n = "yaxis3" := h
      rw [h']
      decide
    · have h' : n = "yaxis4" := h
      rw [h']
      decide
  have hx : findVal (xSegment (captureZoom gd).xaxis) (n, f) = none :=
    findVal_xSegment_none hnx
  rw [hx]
  exact findVal_yBlocks (captureZoom_yaxes_nodup gd) hm

/-! ## Lemmas: the store under a sequence of captures -/

theorem applyCaptures_preserves {ops : List (String × GraphDiv)} {id : String}
    (h : ∀ p ∈ ops, p.1 ≠ id) :
    ∀ s : Store, applyCaptures s ops id = s id := by
  induction ops with
  | nil => intro s; rfl
  | cons p t ih =>
    intro s
    have hstep : applyCaptures s (p :: t) =
        applyCaptures (saveCurrentZoom s p.1 p.2) t := rfl
    rw [hstep, ih (fun q hq => h q (List.mem_cons_of_mem p hq))]
    unfold saveCurrentZoom setStore
    rw [if_neg (fun he => h p (List.mem_cons_self p t) he.symm)]

/-! ## C1: round-trip of viewport state -/

/-- **C1**: capture chart `id`'s live state, then run any sequence of
captures for other charts (switch-away and switch-back both only capture
other charts), then restore `id`: the restore succeeds and its layout
settings carry, for the x axis and for every y axis present in the
captured snapshot, exactly the captured range and autorange values — the
snapshot of the last capture, not an older or merged one. -/
theorem viewport_state_round_trip (gd : GraphDiv) (id : String) (s : Store)
    (ops : List (String × GraphDiv)) (hops : ∀ p ∈ ops, p.1 ≠ id) :
    ∃ res, restoreSavedZoom (applyCaptures (saveCurrentZoom s id gd) ops) id =
        some res ∧
      findVal res.layoutSettings ("xaxis", LField.range) =
        Option.map Val.vArr (captureZoom gd).xaxis.range ∧
      findVal res.layoutSettings ("xaxis", LField.autorange) =
        Option.map Val.vBool (captureZoom gd).xaxis.autorange ∧
      (∀ n d, (n, d) ∈ (captureZoom gd).yaxes →
        findVal res.layoutSettings (n, LField.range) =
          Option.map Val.vArr d.range ∧
        findVal res.layoutSettings (n, LField.autorange) =
          Option.map Val.vBool d.autorange) := by
  have hstore : applyCaptures (saveCurrentZoom s id gd) ops id =
      some (captureZoom gd) := by
    rw [applyCaptures_preserves hops]
    unfold saveCurrentZoom setStore
    rw [if_pos rfl]
  refine ⟨{ layoutSettings := restoreSettings (captureZoom gd)
            traceVisibility := some (captureZoom gd).traceVisibility },
    ?_, ?_, ?_, ?_⟩
  · unfold restoreSavedZoom
    rw [hstore]
    rfl
  · exact (findVal_restoreSettings_x gd LField.range).trans
      (findVal_xSegment_range _)
  · exact (findVal_restoreSettings_x gd LField.autorange).trans
      (findVal_xSegment_autorange _)
  · intro n d hm
    exact ⟨(findVal_restoreSettings_y gd hm LField.range).trans
        (findVal_ySegment_range n d),
      (findVal_restoreSettings_y gd hm LField.autorange).trans
        (findVal_ySegment_autorange n d)⟩

/-- Witness for C1: capture `realisedcap`, capture another chart while
switched away, restore `realisedcap`. -/
theorem viewport_state_round_trip_witness :
    (∀ p ∈ [("sopr_sth", gdEx2)], p.1 ≠ "realisedcap") ∧
    (∃ res, restoreSavedZoom (applyCaptures
        (saveCurrentZoom (fun _ => none) "realisedcap" gdEx)
        [("sopr_sth", gdEx2)]) "realisedcap" = some res ∧
      findVal res.layoutSettings ("xaxis", LField.range) =
        Option.map Val.vArr (captureZoom gdEx).xaxis.range ∧
      findVal res.layoutSettings ("xaxis", LField.autorange) =
        Option.map Val.vBool (captureZoom gdEx).xaxis.autorange ∧
      (∀ n d, (n, d) ∈ (captureZoom gdEx).yaxes →
        findVal res.layoutSettings (n, LField.range) =
          Option.map Val.vArr d.range ∧
        findVal res.layoutSettings (n, LField.autorange) =
          Option.map Val.vBool d.autorange)) := by
  have hops : ∀ p ∈ [("sopr_sth", gdEx2)], p.1 ≠ "realisedcap" := by
    intro p hp
    rw [List.mem_singleton] at hp
    subst hp
    decide
  exact ⟨hops, viewport_state_round_trip gdEx "realisedcap" (fun _ => none)
    [("sopr_sth", gdEx2)] hops⟩

/-! ## C6: restore only touches snapshot axes -/

/-- **C6**: every key of the layout settings computed by the restore step
names either the x axis or a y axis present in the saved snapshot; axes
never captured are never touched. -/
theorem restore_touches_only_snapshot_axes (saved : ZoomSettings)
    (k : String × LField) (v : Val) (h : (k, v) ∈ restoreSettings saved) :
    k.1 = "xaxis" ∨ ∃ d, (k.1, d) ∈ saved.yaxes := by
  unfold restoreSettings at h
  rcases List.mem_append.mp h with h | h
  · left
    exact mem_xSegment h
  · right
    rcases List.mem_flatMap.mp h with ⟨q, hq, hpq⟩
    have ha : k.1 = q.1 := mem_ySegment hpq
    refine ⟨q.2, ?_⟩
    rw [ha]
    exact (List.mem_filter.mp hq).1

/-- Witness for C6 at the first emitted key of a concrete snapshot. -/
theorem restore_touches_only_snapshot_axes_witness :
    ((("xaxis", LField.range), Val.vArr [Val.vNum 1, Val.vNum 2]) ∈
      restoreSettings zoomSettingsEx) ∧
    (("xaxis", LField.range).1 = "xaxis" ∨
      ∃ d, (("xaxis", LField.range).1, d) ∈ zoomSettingsEx.yaxes) := by
  have hmem : ((("xaxis", LField.range), Val.vArr [Val.vNum 1, Val.vNum 2]) ∈
      restoreSettings zoomSettingsEx) := by
    rw [show restoreSettings zoomSettingsEx =
      [(("xaxis", LField.range), Val.vArr [Val.vNum 1, Val.vNum 2]),
       (("xaxis", LField.autorange), Val.vBool false)] from rfl]
    exact List.mem_cons_self _ _
  exact ⟨hmem, restore_touches_only_snapshot_axes zoomSettingsEx
    ("xaxis", LField.range) (Val.vArr [Val.vNum 1, Val.vNum 2]) hmem⟩

/-! ## Lemmas: the second corrective pass -/

theorem mem_copyKey {ls : LSettings} {k : String × LField}
    {p : (String × LField) × Val} (hp : p ∈ copyKey ls k) : p.1 = k := by
  unfold copyKey at hp
  split at hp <;> simp_all

theorem findVal_copyKey_ne {ls : LSettings} {k k' : String × LField}
    (h : k' ≠ k) : findVal (copyKey ls k) k' = none :=
  findVal_eq_none (fun p hp => by
    rw [mem_copyKey hp]
    exact fun he => h he.symm)

theorem findVal_copyKey_self {ls : LSettings} {k : String × LField} :
    findVal (copyKey ls k) k = findVal ls k := by
  cases hv : findVal ls k <;> simp [copyKey, hv, findVal]

theorem mem_secondPassBlock {ls : LSettings} {m : String}
    {p : (String × LField) × Val} (hp : p ∈ secondPassBlock ls m) :
    p.1.1 = m := by
  unfold secondPassBlock at hp
  rcases List.mem_append.mp hp with h | h
  · rcases List.mem_append.mp h with h | h
    · rcases List.mem_append.mp h with h | h
      · rw [mem_copyKey h]
      · rw [mem_copyKey h]
    · rw [mem_copyKey h]
  · rw [mem_copyKey h]

theorem findVal_secondPassBlock (ls : LSettings) (n : String) (f : LField)
    (hf : f = LField.position ∨ f = LField.anchor ∨ f = LField.overlaying ∨
      f = LField.side) :
    findVal (secondPassBlock ls n) (n, f) = findVal ls (n, f) := by
  unfold secondPassBlock
  rcases hf with h | h | h | h <;> subst h
  · have h2 : findVal (copyKey ls (n, LField.anchor))
        (n, LField.position) = none := findVal_copyKey_ne (by simp)
    have h3 : findVal (copyKey ls (n, LField.overlaying))
        (n, LField.position) = none := findVal_copyKey_ne (by simp)
    have h4 : findVal (copyKey ls (n, LField.side))
        (n, LField.position) = none := findVal_copyKey_ne (by simp)
    rw [List.append_assoc, List.append_assoc, findVal_append,
      findVal_copyKey_self]
    cases hv : findVal ls (n, LField.position) with
    | some v => simp
    | none => simp [findVal_append, h2, h3, h4]
  · have h1 : findVal (copyKey ls (n, LField.position))
        (n, LField.anchor) = none := findVal_copyKey_ne (by simp)
    have h3 : findVal (copyKey ls (n, LField.overlaying))
        (n, LField.anchor) = none := findVal_copyKey_ne (by simp)
    have h4 : findVal (copyKey ls (n, LField.side))
        (n, LField.anchor) = none := findVal_copyKey_ne (by simp)
    rw [List.append_assoc, List.append_assoc, findVal_append, h1,
      findVal_append, findVal_copyKey_self]
    cases hv : findVal ls (n, LField.anchor) with
    | some v => simp
    | none => simp [findVal_append, h3, h4]
  · have h1 : findVal (copyKey ls (n, LField.position))
        (n, LField.overlaying) = none := findVal_copyKey_ne (by simp)
    have h2 : findVal (copyKey ls (n, LField.anchor))
        (n, LField.overlaying) = none := findVal_copyKey_ne (by simp)
    have h4 : findVal (copyKey ls (n, LField.side))
        (n, LField.overlaying) = none := findVal_copyKey_ne (by simp)
    rw [List.append_assoc, List.append_assoc, findVal_append, h1,
      findVal_append, h2, findVal_append, findVal_copyKey_self]
    cases hv : findVal ls (n, LField.overlaying) with
    | some v => simp
    | none => simp [h4]
  · have h1 : findVal (copyKey ls (n, LField.position))
        (n, LField.side) = none := findVal_copyKey_ne (by simp)
    have h2 : findVal (copyKey ls (n, LField.anchor))
        (n, LField.side) = none := findVal_copyKey_ne (by simp)
    have h3 : findVal (copyKey ls (n, LField.overlaying))
        (n, LField.side) = none := findVal_copyKey_ne (by simp)
    rw [List.append_assoc, List.append_assoc, findVal_append, h1,
      findVal_append, h2, findVal_append, h3, findVal_copyKey_self]

theorem foldl_append_blocks (L : List String) (f : String → LSettings) :
    ∀ acc : LSettings, L.foldl (fun a x => a ++ f x) acc = acc ++ L.flatMap f := by
  induction L with
  | nil => intro acc; simp
  | cons x t ih =>
    intro acc
    rw [List.foldl_cons, ih, List.flatMap_cons, List.append_assoc]

theorem buildSecondPass_eq_flatMap (ls : LSettings) :
    buildSecondPass ls = (posAxesOf ls).flatMap (secondPassBlock ls) := by
  unfold buildSecondPass
  rw [foldl_append_blocks, List.nil_append]

theorem findVal_axisBlocks (ls : LSettings) (L : List String) (n : String)
    (f : LField) :
    findVal (L.flatMap (secondPassBlock ls)) (n, f) =
      if n ∈ L then findVal (secondPassBlock ls n) (n, f) else none := by
  induction L with
  | nil => simp [findVal]
  | cons m t ih =>
    rw [List.flatMap_cons, findVal_append]
    by_cases hmn : m = n
    · subst hmn
      cases hv : findVal (secondPassBlock ls m) (m, f) with
      | some v => simp [hv]
      | none =>
        by_cases hmt : m ∈ t <;> simp [ih, hv, hmt]
    · have hz : findVal (secondPassBlock ls m) (n, f) = none := by
        apply findVal_eq_none
        intro p hp
        intro hk
        have hb := mem_secondPassBlock hp
        rw [hk] at hb
        have hb' : n = m := hb
        exact hmn hb'.symm
      rw [hz, ih]
      have hnm : n ≠ m := fun he => hmn he.symm
      simp [List.mem_cons, hnm]

theorem mem_posAxesOf {ls : LSettings} {n : String}
    (hmem : (n, LField.position) ∈ ls.map (fun p => p.1))
    (hsec : isSecondaryYName n = true) : n ∈ posAxesOf ls := by
  unfold posAxesOf
  apply List.mem_filter.mpr
  constructor
  · apply List.mem_filterMap.mpr
    exact ⟨(n, LField.position), hmem, by simp [hsec]⟩
  · simp only [decide_eq_true_eq]
    intro he
    rw [he] at hsec
    exact absurd hsec (by decide)

/-! ## C7: second pass for positioned secondary axes -/

/-- **C7**: for every secondary y axis whose captured snapshot included a
position, the second corrective pass re-asserts `position` together with
`anchor` (defaulting to `"free"` when absent from the snapshot),
`overlaying` (defaulting to the primary axis id `"y"` when absent), and
`side` (when the snapshot carried a non-empty one). -/
theorem second_pass_reasserts_position_coupling (gd : GraphDiv) (n : String)
    (d : YSnap) (p : Int)
    (hm : (n, d) ∈ (captureZoom gd).yaxes)
    (hn : n ≠ "yaxis")
    (hp : d.position = some p) :
    findVal (buildSecondPass (restoreSettings (captureZoom gd)))
        (n, LField.position) = some (Val.vNum p) ∧
    findVal (buildSecondPass (restoreSettings (captureZoom gd)))
        (n, LField.anchor) = some (Val.vStr (d.anchor.getD "free")) ∧
    findVal (buildSecondPass (restoreSettings (captureZoom gd)))
        (n, LField.overlaying) = some (Val.vStr (d.overlaying.getD "y")) ∧
    (∀ sv, d.side = some sv → sv ≠ "" →
      findVal (buildSecondPass (restoreSettings (captureZoom gd)))
        (n, LField.side) = some (Val.vStr sv)) := by
  have hsec : isSecondaryYName n = true := by
    rcases captureZoom_yaxes_names hm with h | h | h | h
    · exact absurd h hn
    · have h' : n = "yaxis2" := h
      rw [h']
      decide
    · have h' : n = "yaxis3" := h
      rw [h']
      decide
    · have h' : n = "yaxis4" := h
      rw [h']
      decide
  have hlpos : findVal (restoreSettings (captureZoom gd))
      (n, LField.position) = some (Val.vNum p) :=
    (findVal_restoreSettings_y gd hm LField.position).trans
      ((findVal_ySegment_posField (Or.inl rfl)).trans
        (findVal_posSeg_position hn hp))
  have hlanchor : findVal (restoreSettings (captureZoom gd))
      (n, LField.anchor) = some (Val.vStr (d.anchor.getD "free")) :=
    (findVal_restoreSettings_y gd hm LField.anchor).trans
      ((findVal_ySegment_posField (Or.inr (Or.inl rfl))).trans
        (findVal_posSeg_anchor hn hp))
  have hlover : findVal (restoreSettings (captureZoom gd))
      (n, LField.overlaying) = some (Val.vStr (d.overlaying.getD "y")) :=
    (findVal_restoreSettings_y gd hm LField.overlaying).trans
      ((findVal_ySegment_posField (Or.inr (Or.inr (Or.inl rfl)))).trans
        (findVal_posSeg_overlaying hn hp))
  have hnpos : n ∈ posAxesOf (restoreSettings (captureZoom gd)) :=
    mem_posAxesOf (findVal_isSome_mem hlpos) hsec
  have hbp : ∀ f : LField, (f = LField.position ∨ f = LField.anchor ∨
      f = LField.overlaying ∨ f = LField.side) →
      findVal (buildSecondPass (restoreSettings (captureZoom gd))) (n, f) =
        findVal (restoreSettings (captureZoom gd)) (n, f) := by
    intro f hf
    rw [buildSecondPass_eq_flatMap, findVal_axisBlocks, if_pos hnpos,
      findVal_secondPassBlock _ _ _ hf]
  refine ⟨?_, ?_, ?_, ?_⟩
  · rw [hbp LField.position (Or.inl rfl), hlpos]
  · rw [hbp LField.anchor (Or.inr (Or.inl rfl)), hlanchor]
  · rw [hbp LField.overlaying (Or.inr (Or.inr (Or.inl rfl))), hlover]
  · intro sv hs hsne
    have hlside : findVal (restoreSettings (captureZoom gd))
        (n, LField.side) = some (Val.vStr sv) :=
      (findVal_restoreSettings_y gd hm LField.side).trans
        ((findVal_ySegment_posField (Or.inr (Or.inr (Or.inr rfl)))).trans
          (findVal_posSeg_side hn hp hs hsne))
    rw [hbp LField.side (Or.inr (Or.inr (Or.inr rfl))), hlside]

/-- Witness for C7 at the concrete graph state `gdEx`, whose `yaxis2`
snapshot includes a position. -/
theorem second_pass_reasserts_witness :
    (("yaxis2", ySnapEx2) ∈ (captureZoom gdEx).yaxes ∧
     ("yaxis2" : String) ≠ "yaxis" ∧ ySnapEx2.position = some 1) ∧
    (findVal (buildSecondPass (restoreSettings (captureZoom gdEx)))
        ("yaxis2", LField.position) = some (Val.vNum 1) ∧
     findVal (buildSecondPass (restoreSettings (captureZoom gdEx)))
        ("yaxis2", LField.anchor) =
          some (Val.vStr (ySnapEx2.anchor.getD "free")) ∧
     findVal (buildSecondPass (restoreSettings (captureZoom gdEx)))
        ("yaxis2", LField.overlaying) =
          some (Val.vStr (ySnapEx2.overlaying.getD "y")) ∧
     (∀ sv, ySnapEx2.side = some sv → sv ≠ "" →
       findVal (buildSecondPass (restoreSettings (captureZoom gdEx)))
        ("yaxis2", LField.side) = some (Val.vStr sv))) := by
  have hmem : ("yaxis2", ySnapEx2) ∈ (captureZoom gdEx).yaxes := by
    rw [show (captureZoom gdEx).yaxes =
      [("yaxis", ySnapEx1), ("yaxis2", ySnapEx2)] from rfl]
    exact List.mem_cons_of_mem _ (List.mem_cons_self _ _)
  exact ⟨⟨hmem, by decide, rfl⟩,
    second_pass_reasserts_position_coupling gdEx "yaxis2" ySnapEx2 1
      hmem (by decide) rfl⟩
